import Mathlib

/-!
Verification of the shape-inventory / positional-reconciliation core of the
Ag-ppt-create pipeline (scripts/extract_shapes.py and scripts/apply_content.py).

The embedding models:
* EMU geometry and the EMU→inch conversion (`emu_to_inches`),
* Python `str.strip()` on character lists (`pyStrip`), text-frame text as the
  newline join of paragraph texts,
* a slide's shape tree (`PShape`: group nodes with optional local offsets and
  leaf shapes with optional geometry, optional text frame, optional placeholder
  type string),
* the extraction walker (`extract_shape_text` / `extract_shapes_recursive` of
  extract_shapes.py), the application walker (`extract_shapes_from_slide` of
  apply_content.py), the stable visual sort by `(top_inches, left_inches)`,
* overlap detection (`detect_overlaps`), slide deletion (`delete_slides`),
* text-width estimation and the font auto-shrink policy
  (`estimate_text_width`, `calculate_optimal_font_size`, the sizing decision
  of `apply_shape_text`), and paragraph formatting application
  (`clear_paragraph_formatting` / `apply_paragraph_formatting`).

Machine integers are modelled as `Int` (EMU values), inch/point quantities as
`ℚ`.  Each leaf shape carries a ghost identifier `srcId` modelling Python
object identity; no algorithm inspects it, it only lets theorems speak about
"the same shape" across the two independently implemented walkers.
-/

namespace AgPpt

/-- EMU per inch, the constant `EMU_PER_INCH = 914400` of extract_shapes.py. -/
def EMU_PER_INCH : Int := 914400

/-- The `emu_to_inches` (identical in extract_shapes.py and apply_content.py):
divide by 914400.  Python floats are modelled as exact rationals. -/
def emu_to_inches (emu : Int) : ℚ := (emu : ℚ) / 914400

/-- A character counted as whitespace by Python's `str.strip()` (default,
no-argument form). -/
def isSpaceChar (c : Char) : Bool := c.isWhitespace

/-- Python `s.strip()` on a character list: drop whitespace from both ends. -/
def pyStrip (l : List Char) : List Char :=
  ((l.dropWhile isSpaceChar).reverse.dropWhile isSpaceChar).reverse

/-- The `"\n".join(texts)`: the text of a text frame is the newline join of its
paragraph texts (python-pptx `TextFrame.text`). -/
def joinNl : List (List Char) → List Char
  | [] => []
  | [p] => p
  | p :: q :: ps => p ++ '\n' :: joinNl (q :: ps)

/-- The `needle in hay` on strings: contiguous-substring test. -/
def hasSubstr (needle hay : List Char) : Bool :=
  (List.range (hay.length + 1)).any fun k => needle.isPrefixOf (hay.drop k)

/-- The placeholder-type filter common to both walkers: skip when the
stringified placeholder type contains `SLIDE_NUMBER`, `FOOTER` or `DATE`. -/
def isSkippedPhType (t : List Char) : Bool :=
  hasSubstr "SLIDE_NUMBER".toList t || hasSubstr "FOOTER".toList t ||
    hasSubstr "DATE".toList t

/-- A leaf (non-group) shape as both walkers observe it.

* `srcId` — ghost identity (Python object identity); never inspected by the
  modelled algorithms.
* `left`, `top`, `width`, `height` — EMU geometry, `none` models a missing
  (`None`) value; both tools read these as `shape.left or 0` etc.
* `textFrame` — `some ps` iff `shape.has_text_frame`, with `ps` the list of
  paragraph texts (python-pptx `paragraph.text` values).
* `phType` — `some t` iff `shape.is_placeholder`, with `t` the string both
  tools compute as `str(placeholder.type) if placeholder.type else ""`.

Formatting attributes of paragraphs (alignment, fonts, colors, …) are not
modelled here: no claim about the walkers depends on them. -/
structure Leaf where
  srcId : Nat
  left : Option Int
  top : Option Int
  width : Option Int
  height : Option Int
  textFrame : Option (List (List Char))
  phType : Option (List Char)
deriving DecidableEq, Repr

/-- A slide's shape tree: group shapes (python-pptx `shape_type == 6`) with
optional local offset and children, or leaf shapes. -/
inductive PShape where
  | group (left top : Option Int) (children : List PShape)
  | leaf (lf : Leaf)

/-- The `text.replace('\x0b', ' ')`: PowerPoint soft line breaks become spaces. -/
def replaceVt (l : List Char) : List Char :=
  l.map fun c => if c = Char.ofNat 11 then ' ' else c

/-- The text of a `ParagraphData` built by
`ParagraphData.from_paragraph` (extract_shapes.py): strip, then replace
vertical tabs by spaces.  Other fields of `ParagraphData` are omitted (no
claim depends on them). -/
def cleanParaText (p : List Char) : List Char := replaceVt (pyStrip p)

/-- The `ShapeData` record of extract_shapes.py, restricted to the fields the
claims are about.  Geometry is in inches; `overlap` is the
`overlapping_shapes` map, a list of (other-shape index, area) pairs; `srcId`
is the ghost identity of the source shape. -/
structure ShapeData where
  srcId : Nat
  left : ℚ
  top : ℚ
  width : ℚ
  height : ℚ
  paragraphs : List (List Char)
  overlap : Option (List (Nat × ℚ)) := none
deriving DecidableEq, Repr

/-- The `extract_shape_text(shape, offset_left, offset_top)` of extract_shapes.py:
`none` when the shape is filtered out, otherwise the `ShapeData` with absolute
position in inches.  The checks, in source order: no text frame; empty trimmed
text-frame text; SLIDE_NUMBER/FOOTER/DATE placeholder; finally paragraphs with
non-empty trimmed text are collected and the shape is dropped if none survive. -/
def extract_shape_text (lf : Leaf) (offset_left offset_top : Int) :
    Option ShapeData :=
  match lf.textFrame with
  | none => none
  | some ps =>
    if pyStrip (joinNl ps) = [] then none
    else if (match lf.phType with
             | some t => isSkippedPhType t
             | none => false) then none
    else
      let abs_left := lf.left.getD 0 + offset_left
      let abs_top := lf.top.getD 0 + offset_top
      let paras := (ps.filter fun p => ¬ (pyStrip p = [])).map cleanParaText
      if paras = [] then none
      else some
        { srcId := lf.srcId
          left := emu_to_inches abs_left
          top := emu_to_inches abs_top
          width := emu_to_inches (lf.width.getD 0)
          height := emu_to_inches (lf.height.getD 0)
          paragraphs := paras }

mutual

/-- The `extract_shapes_recursive(shapes, offset_left, offset_top)` of
extract_shapes.py: flat list of `(ShapeData, absolute_left, absolute_top)`
triples (positions in EMU), groups recursed with accumulated offsets. -/
def extract_shapes_recursive (shapes : List PShape)
    (offset_left offset_top : Int) : List (ShapeData × Int × Int) :=
  match shapes with
  | [] => []
  | s :: rest =>
    extract_one s offset_left offset_top ++
      extract_shapes_recursive rest offset_left offset_top

/-- One iteration of the loop body of `extract_shapes_recursive`. -/
def extract_one (s : PShape) (offset_left offset_top : Int) :
    List (ShapeData × Int × Int) :=
  match s with
  | .group gl gt children =>
    extract_shapes_recursive children (gl.getD 0 + offset_left)
      (gt.getD 0 + offset_top)
  | .leaf lf =>
    match extract_shape_text lf offset_left offset_top with
    | some sd => [(sd, lf.left.getD 0 + offset_left, lf.top.getD 0 + offset_top)]
    | none => []

end

mutual

/-- The `get_shapes_recursive` inside `extract_shapes_from_slide`
(apply_content.py): flat list of `(shape, absolute_left, absolute_top)`
triples, with the same group recursion and the same filters (no text frame,
empty trimmed text, SLIDE_NUMBER/FOOTER/DATE placeholders). -/
def get_shapes_recursive (shapes : List PShape)
    (offset_left offset_top : Int) : List (Leaf × Int × Int) :=
  match shapes with
  | [] => []
  | s :: rest =>
    apply_one s offset_left offset_top ++
      get_shapes_recursive rest offset_left offset_top

/-- One iteration of the loop body of `get_shapes_recursive`. -/
def apply_one (s : PShape) (offset_left offset_top : Int) :
    List (Leaf × Int × Int) :=
  match s with
  | .group gl gt children =>
    get_shapes_recursive children (gl.getD 0 + offset_left)
      (gt.getD 0 + offset_top)
  | .leaf lf =>
    match lf.textFrame with
    | none => []
    | some ps =>
      if pyStrip (joinNl ps) = [] then []
      else if (match lf.phType with
               | some t => isSkippedPhType t
               | none => false) then []
      else [(lf, lf.left.getD 0 + offset_left, lf.top.getD 0 + offset_top)]

end

/-- Python tuple comparison on `(top, left)` keys, as `list.sort(key=…)`
uses it: lexicographic, non-strict. -/
def keyLE (p q : ℚ × ℚ) : Bool :=
  decide (p.1 < q.1 ∨ (p.1 = q.1 ∧ p.2 ≤ q.2))

/-- Insert into a sorted list, after all elements it does not strictly
precede — the insertion step of a stable sort. -/
def insertSorted (le : α → α → Bool) (a : α) : List α → List α
  | [] => [a]
  | b :: bs => if le a b then a :: b :: bs else b :: insertSorted le a bs

/-- Stable sort (models Python's `list.sort`, which is stable): equal-key
elements keep their relative order. -/
def stableSortBy (le : α → α → Bool) : List α → List α
  | [] => []
  | a :: rest => insertSorted le a (stableSortBy le rest)

/-- The extraction tool's slide pipeline up to the visual sort:
walk, then `sort(key=lambda x: (x[0].top, x[0].left))`. -/
def extractSorted (shapes : List PShape) : List (ShapeData × Int × Int) :=
  stableSortBy (fun a b => keyLE (a.1.top, a.1.left) (b.1.top, b.1.left))
    (extract_shapes_recursive shapes 0 0)

/-- The `extract_shapes_from_slide(slide)` of apply_content.py: walk, then
`sort(key=lambda x: (emu_to_inches(x[2]), emu_to_inches(x[1])))`, then keep
just the shapes. -/
def extract_shapes_from_slide (shapes : List PShape) : List Leaf :=
  (stableSortBy
      (fun a b =>
        keyLE (emu_to_inches a.2.2, emu_to_inches a.2.1)
          (emu_to_inches b.2.2, emu_to_inches b.2.1))
      (get_shapes_recursive shapes 0 0)).map (·.1)

/-- Python `round(x, 2)` used on overlap areas: round to two decimal places.
Tie behaviour and binary-float representation are abstracted; the model is a
fixed deterministic rounding applied identically everywhere, which is all the
claims depend on. -/
def round2 (q : ℚ) : ℚ := ((round (q * 100) : ℤ) : ℚ) / 100

/-- The inner loop of `detect_overlaps` (extract_shapes.py) for the `i`-th
entry `e1`: for every other index `j`, convert both boxes to inches, test the
four strict inequalities, compute the intersection area, and record
`(j, round(area, 2))` when the area is positive.  The key `j` is the position
of the other shape in the list `detect_overlaps` was given. -/
def overlapEntriesFor (e1 : ShapeData × Int × Int) (i : Nat)
    (ws : List (ShapeData × Int × Int)) : List (Nat × ℚ) :=
  ws.enum.filterMap fun je =>
    let j := je.1
    let e2 := je.2
    if i = j then none
    else
      let s1_left := emu_to_inches e1.2.1
      let s1_top := emu_to_inches e1.2.2
      let s1_right := s1_left + e1.1.width
      let s1_bottom := s1_top + e1.1.height
      let s2_left := emu_to_inches e2.2.1
      let s2_top := emu_to_inches e2.2.2
      let s2_right := s2_left + e2.1.width
      let s2_bottom := s2_top + e2.1.height
      if s1_left < s2_right ∧ s2_left < s1_right ∧
          s1_top < s2_bottom ∧ s2_top < s1_bottom then
        let overlap_area :=
          (min s1_right s2_right - max s1_left s2_left) *
            (min s1_bottom s2_bottom - max s1_top s2_top)
        if 0 < overlap_area then some (j, round2 overlap_area) else none
      else none

/-- The `detect_overlaps(shapes)` of extract_shapes.py: each entry's `overlap`
field is set to its non-empty overlap list (and left `none` when the list is
empty).  Positions are unchanged. -/
def detect_overlaps (ws : List (ShapeData × Int × Int)) :
    List (ShapeData × Int × Int) :=
  ws.enum.map fun ie =>
    let os := overlapEntriesFor ie.2 ie.1 ws
    (if os = [] then ie.2.1 else { ie.2.1 with overlap := some os },
      ie.2.2.1, ie.2.2.2)

/-- The per-slide pipeline of `extract_text_inventory` (extract_shapes.py):
walk, detect overlaps (before sorting, on the traversal-ordered list), then
the stable visual sort.  The serialized ordinal `shape-{k}` of a shape is its
position in this list. -/
def slideInventory (shapes : List PShape) : List (ShapeData × Int × Int) :=
  stableSortBy (fun a b => keyLE (a.1.top, a.1.left) (b.1.top, b.1.left))
    (detect_overlaps (extract_shapes_recursive shapes 0 0))

/-- The `delete_slides(prs, data)` of apply_content.py, as the set of deleted
slide indices: `slides_to_keep` (when present) wins and deletes the
complement; otherwise `slides_to_delete` is used; out-of-range indices are
intersected away (with a printed warning) rather than raising. -/
def delete_slides (slides_to_keep slides_to_delete : Option (List Nat))
    (total_slides : Nat) : Finset Nat :=
  let toDelete : Finset Nat :=
    match slides_to_keep with
    | some ks => Finset.range total_slides \ ks.toFinset
    | none =>
      match slides_to_delete with
      | some ds => ds.toFinset
      | none => ∅
  toDelete ∩ Finset.range total_slides

/-- The out-of-range indices `delete_slides` warns about and skips. -/
def invalid_slide_indices (slides_to_keep slides_to_delete : Option (List Nat))
    (total_slides : Nat) : Finset Nat :=
  (match slides_to_keep with
    | some ks => Finset.range total_slides \ ks.toFinset
    | none =>
      match slides_to_delete with
      | some ds => ds.toFinset
      | none => ∅) \ Finset.range total_slides

/-- A character in the Hiragana, Katakana or CJK-ideograph ranges of the
regex in `estimate_text_width` (apply_content.py). -/
def isJapaneseChar (c : Char) : Bool :=
  (0x3040 ≤ c.toNat && c.toNat ≤ 0x309F) ||
    (0x30A0 ≤ c.toNat && c.toNat ≤ 0x30FF) ||
    (0x4E00 ≤ c.toNat && c.toNat ≤ 0x9FFF)

/-- The `estimate_text_width(text, font_size)` of apply_content.py: Japanese
characters count 0.9 em, all others 0.5 em, 72 points per inch. -/
def estimate_text_width (text : List Char) (font_size : ℚ) : ℚ :=
  let ja_chars : Nat := (text.filter isJapaneseChar).length
  let other_chars : Nat := text.length - ja_chars
  (ja_chars : ℚ) * (font_size / 72) * (9 / 10) +
    (other_chars : ℚ) * (font_size / 72) * (1 / 2)

/-- Python `text.split('\n')`: never empty, keeps empty segments. -/
def splitOnNl : List Char → List (List Char)
  | [] => [[]]
  | c :: cs =>
    match splitOnNl cs with
    | [] => [[]]
    | l :: ls => if c = '\n' then [] :: l :: ls else (c :: l) :: ls

/-- The `max(lines, key=len) if lines else text` of apply_content.py: the first
longest line (Python's `max` keeps the first maximal element). -/
def maxLineOf (text : List Char) : List Char :=
  match splitOnNl text with
  | [] => text
  | x :: xs => xs.foldl (fun best y => if best.length < y.length then y else best) x

/-- The `calculate_optimal_font_size(text, shape_width_inches,
original_font_size, min_font_size=12.0)` of apply_content.py: return the
original size if the longest line's estimated width fits in 95% of the shape
width, otherwise scale the size down proportionally and clamp to the minimum. -/
def calculate_optimal_font_size (text : List Char)
    (shape_width_inches original_font_size : ℚ)
    (min_font_size : ℚ := 12) : ℚ :=
  let max_line := maxLineOf text
  let estimated_width := estimate_text_width max_line original_font_size
  if estimated_width ≤ shape_width_inches * (95 / 100) then original_font_size
  else
    let ratio := shape_width_inches * (95 / 100) / estimated_width
    max (original_font_size * ratio) min_font_size

/-- The `emu_to_inches(shape.width) if shape.width else 10.0` in
`apply_shape_text`: Python truthiness makes both `None` and `0` fall back to
10 inches. -/
def shape_width_inches_of (width : Option Int) : ℚ :=
  match width with
  | some w => if w = 0 then 10 else emu_to_inches w
  | none => 10

/-- The font-size decision of `apply_shape_text` (apply_content.py) for one
paragraph: when auto-shrink is on and the text is non-empty, the optimal size
is applied only under the guard `optimal_font_size < original_font_size`;
in every other case the original size is kept (possibly with an overflow
warning, which does not change the size). -/
def applied_font_size (auto_shrink : Bool) (text : List Char)
    (shape_width_inches original_font_size : ℚ) : ℚ :=
  if auto_shrink ∧ text ≠ [] then
    let optimal_font_size :=
      calculate_optimal_font_size text shape_width_inches original_font_size
    if optimal_font_size < original_font_size then optimal_font_size
    else original_font_size
  else original_font_size

/-- The `check_overflow_warning` of apply_content.py, as the condition under
which a warning string is returned. -/
def check_overflow_warning (text : List Char)
    (shape_width_inches font_size : ℚ) : Bool :=
  decide (shape_width_inches * 1 <
    estimate_text_width (maxLineOf text) font_size)

/-- A child element of a paragraph's `<a:pPr>` relevant to bullet
formatting; `other` stands for any element `clear_paragraph_formatting`
does not touch. -/
inductive PPrChild where
  | buChar (char : List Char)
  | buNone
  | buAutoNum
  | buFont
  | buSzPct
  | buSzPts
  | other (tag : Nat)
deriving DecidableEq, Repr

/-- The tags removed by `clear_paragraph_formatting`. -/
def isBuTag : PPrChild → Bool
  | .other _ => false
  | _ => true

/-- The `<a:pPr>` state of a paragraph: `marL`/`indent` attributes and the
bullet-relevant children. -/
structure ParaXml where
  marL : Option Int := none
  indent : Option Int := none
  children : List PPrChild := []
deriving DecidableEq, Repr

/-- python-pptx `PP_ALIGN` values reachable from `apply_paragraph_formatting`. -/
inductive PPAlign where
  | left
  | center
  | right
  | justify
deriving DecidableEq, Repr

/-- Font attributes of a run set by `apply_font_properties`; colour
application is omitted (no claim depends on it and it reads no other
directive field). -/
structure RunFont where
  size : Option ℚ := none
  name : Option (List Char) := none
  bold : Option Bool := none
  italic : Option Bool := none
  underline : Option Bool := none
deriving DecidableEq, Repr

/-- A text run. -/
structure Run where
  text : List Char := []
  font : RunFont := {}
deriving DecidableEq, Repr

/-- The mutable paragraph state `apply_paragraph_formatting` acts on. -/
structure ParaState where
  pPr : ParaXml := {}
  level : Nat := 0
  alignment : Option PPAlign := none
  space_before : Option ℚ := none
  space_after : Option ℚ := none
  runs : List Run := []
deriving DecidableEq, Repr

/-- A paragraph directive (one element of a `paragraphs` list in the
replacement JSON).  `none` models an absent key. -/
structure ParaData where
  text : List Char := []
  bullet : Option Bool := none
  level : Option Nat := none
  alignment : Option (List Char) := none
  space_before : Option ℚ := none
  space_after : Option ℚ := none
  font_size : Option ℚ := none
  font_name : Option (List Char) := none
  bold : Option Bool := none
  italic : Option Bool := none
  underline : Option Bool := none
deriving DecidableEq, Repr

/-- The `clear_paragraph_formatting(paragraph)`: remove the bullet-formatting
children (`buChar`, `buNone`, `buAutoNum`, `buFont`, `buSzPct`, `buSzPts`)
from `<a:pPr>`. -/
def clear_paragraph_formatting (p : ParaXml) : ParaXml :=
  { p with children := p.children.filter fun c => ¬ isBuTag c }

/-- The `alignment_map` of `apply_paragraph_formatting`. -/
def alignment_map (s : List Char) : Option PPAlign :=
  if s = "LEFT".toList then some .left
  else if s = "CENTER".toList then some .center
  else if s = "RIGHT".toList then some .right
  else if s = "JUSTIFY".toList then some .justify
  else none

/-- Python `int()` on a rational: truncation toward zero. -/
def pyInt (q : ℚ) : Int := if 0 ≤ q then ⌊q⌋ else ⌈q⌉

/-- The `apply_font_properties(run, para_data)`: set each font attribute that is
present in the directive. -/
def apply_font_properties (r : Run) (pd : ParaData) : Run :=
  { r with font :=
    { size := match pd.font_size with
        | some v => some v
        | none => r.font.size
      name := match pd.font_name with
        | some v => some v
        | none => r.font.name
      bold := match pd.bold with
        | some v => some v
        | none => r.font.bold
      italic := match pd.italic with
        | some v => some v
        | none => r.font.italic
      underline := match pd.underline with
        | some v => some v
        | none => r.font.underline } }

/-- The `apply_paragraph_formatting(paragraph, para_data)` of apply_content.py:
clean the text, clear existing bullet formatting, then either install bullet
formatting (level, proportional `marL`/hanging `indent`, a `buChar` marker,
default left alignment) when `bullet` is true, or zero the margins and
install a `buNone` marker otherwise; then apply alignment, spacing, the text
to the first run (created when none exists) and the font properties. -/
def apply_paragraph_formatting (p : ParaState) (pd : ParaData) : ParaState :=
  let text := replaceVt pd.text
  let pPr0 := clear_paragraph_formatting p.pPr
  let st0 := { p with pPr := pPr0 }
  let st1 :=
    if pd.bullet.getD false then
      let level := pd.level.getD 0
      let font_size := pd.font_size.getD 18
      let level_indent_emu :=
        pyInt ((font_size * (16 / 10 + (level : ℚ) * (16 / 10))) * 12700)
      let hanging_indent_emu := pyInt (-font_size * (8 / 10) * 12700)
      let st := { st0 with
        level := level
        pPr := { st0.pPr with
          marL := some level_indent_emu
          indent := some hanging_indent_emu
          children := st0.pPr.children ++ [PPrChild.buChar ['•']] } }
      if pd.alignment = none then { st with alignment := some .left } else st
    else
      { st0 with pPr := { st0.pPr with
          marL := some 0
          indent := some 0
          children := st0.pPr.children ++ [PPrChild.buNone] } }
  let st2 :=
    match pd.alignment with
    | some s =>
      match alignment_map s with
      | some a => { st1 with alignment := some a }
      | none => st1
    | none => st1
  let st3 :=
    match pd.space_before with
    | some v => { st2 with space_before := some v }
    | none => st2
  let st4 :=
    match pd.space_after with
    | some v => { st3 with space_after := some v }
    | none => st3
  match st4.runs with
  | [] => { st4 with runs := [apply_font_properties { text := text } pd] }
  | r :: rs =>
    { st4 with runs := apply_font_properties { r with text := text } pd :: rs }

/-- The four strict inequalities `detect_overlaps` screens a pair of boxes
with (in inches): `s1_left < s2_right`, `s2_left < s1_right`,
`s1_top < s2_bottom`, `s2_top < s1_bottom`. -/
def boxes_overlap (e1 e2 : ShapeData × Int × Int) : Prop :=
  emu_to_inches e1.2.1 < emu_to_inches e2.2.1 + e2.1.width ∧
    emu_to_inches e2.2.1 < emu_to_inches e1.2.1 + e1.1.width ∧
    emu_to_inches e1.2.2 < emu_to_inches e2.2.2 + e2.1.height ∧
    emu_to_inches e2.2.2 < emu_to_inches e1.2.2 + e1.1.height

/-- The intersection area `detect_overlaps` computes for a pair of boxes:
`(overlap_right - overlap_left) * (overlap_bottom - overlap_top)`. -/
def overlap_area (e1 e2 : ShapeData × Int × Int) : ℚ :=
  (min (emu_to_inches e1.2.1 + e1.1.width) (emu_to_inches e2.2.1 + e2.1.width) -
      max (emu_to_inches e1.2.1) (emu_to_inches e2.2.1)) *
    (min (emu_to_inches e1.2.2 + e1.1.height)
        (emu_to_inches e2.2.2 + e2.1.height) -
      max (emu_to_inches e1.2.2) (emu_to_inches e2.2.2))

/-- The overlap map `detect_overlaps` leaves on the entry at position `i` of
its input list (`none` when `i` is out of range). -/
def overlap_map_at (ws : List (ShapeData × Int × Int)) (i : Nat) :
    Option (List (Nat × ℚ)) :=
  ((detect_overlaps ws).map fun e => e.1.overlap).getD i none

/-- The overlap map of the shape with visual-sort ordinal `k` in the
serialized inventory of a slide. -/
def inventory_overlap_at (shapes : List PShape) (k : Nat) :
    Option (List (Nat × ℚ)) :=
  ((slideInventory shapes).map fun e => e.1.overlap).getD k none

/-- The identity-and-sort-key view of an extraction-walker entry: ghost id,
top and left in inches (the visual sort key of extract_shapes.py). -/
def extractKeyed (e : ShapeData × Int × Int) : Nat × ℚ × ℚ :=
  (e.1.srcId, e.1.top, e.1.left)

/-- The identity-and-sort-key view of an application-walker entry: ghost id,
top and left in inches (the visual sort key of apply_content.py). -/
def applyKeyed (e : Leaf × Int × Int) : Nat × ℚ × ℚ :=
  (e.1.srcId, emu_to_inches e.2.2, emu_to_inches e.2.1)

/-- The common sort order on keyed views. -/
def keyedLE (x y : Nat × ℚ × ℚ) : Bool :=
  keyLE (x.2.1, x.2.2) (y.2.1, y.2.2)

/-! ### Concrete slides used as test inputs -/

/-- A 1 in × 1 in text box at `(0, 1 in)`, walked first. -/
def overlapLeafHigh : Leaf :=
  { srcId := 10, left := some 0, top := some 914400, width := some 914400,
    height := some 914400, textFrame := some ["A".toList], phType := none }

/-- A 1 in × 1 in text box at `(0, 0.5 in)`, walked second but visually
first. -/
def overlapLeafLow : Leaf :=
  { srcId := 20, left := some 0, top := some 457200, width := some 914400,
    height := some 914400, textFrame := some ["B".toList], phType := none }

/-- A slide whose traversal order (`high` then `low`) differs from its
visual order (`low` then `high`); the two shapes overlap on a 1 in × 0.5 in
strip. -/
def slideTwoOverlapping : List PShape :=
  [.leaf overlapLeafHigh, .leaf overlapLeafLow]

/-- A walked list of two positioned 1 in × 1 in shapes at `(0, 1 in)` and
`(0, 0.5 in)`, as `detect_overlaps` receives it. -/
def wsPair : List (ShapeData × Int × Int) :=
  [({ srcId := 10, left := 0, top := 1, width := 1, height := 1,
      paragraphs := ["A".toList] }, 0, 914400),
    ({ srcId := 20, left := 0, top := 1 / 2, width := 1, height := 1,
        paragraphs := ["B".toList] }, 0, 457200)]

/-- The title shape of the C4 scenario: top 0.5 in. -/
def titleLeaf : Leaf :=
  { srcId := 0, left := some 0, top := some 457200, width := some 914400,
    height := some 228600, textFrame := some ["Title".toList], phType := none }

/-- First group child, local offset `(0, 0)`. -/
def groupChildA : Leaf :=
  { srcId := 1, left := some 0, top := some 0, width := some 914400,
    height := some 228600, textFrame := some ["one".toList], phType := none }

/-- Second group child, local offset `(0, 1 in)`. -/
def groupChildB : Leaf :=
  { srcId := 2, left := some 0, top := some 914400, width := some 914400,
    height := some 228600, textFrame := some ["two".toList], phType := none }

/-- The C4 scenario slide: a title at top 0.5 in and a group placed at
`(1 in, 2 in)` containing two text boxes at local offsets `(0,0)` and
`(0, 1 in)`. -/
def slideTitleGroup : List PShape :=
  [.leaf titleLeaf,
    .group (some 914400) (some 1828800) [.leaf groupChildA, .leaf groupChildB]]

/-! ## Helper lemmas for concrete evaluation -/

theorem twenty_maxLine :
    maxLineOf "12345678901234567890".toList = "12345678901234567890".toList := by
  decide

theorem twenty_no_ja :
    (List.filter isJapaneseChar "12345678901234567890".toList).length = 0 := by
  decide

theorem twenty_len : ("12345678901234567890".toList).length = 20 := by decide

/-- The 20-digit test string has estimated width `20 × (s/72) × 0.5`. -/
theorem estimate_twenty (s : ℚ) :
    estimate_text_width "12345678901234567890".toList s = 5 * s / 36 := by
  simp only [estimate_text_width, twenty_no_ja, twenty_len]
  norm_num
  ring

/-- At 6 pt in a half-inch shape the 20-digit string overflows and the
optimiser clamps up to the 12 pt floor. -/
theorem calc_twenty_half_6 :
    calculate_optimal_font_size "12345678901234567890".toList (1 / 2) 6 = 12 := by
  simp only [calculate_optimal_font_size, twenty_maxLine, estimate_twenty]
  rw [if_neg (by norm_num)]
  rw [max_eq_right (by norm_num)]

/-! ## Claim theorems -/

/-- C3, counterexample: `calculate_optimal_font_size` *can* return more than
the original size.  With 20 narrow characters in a 0.5-inch shape at original
size 6 pt (below the 12 pt minimum), the estimated width 5/6 in exceeds
0.475 in, the proportional reduction is clamped up to the floor, and the
function returns 12 > 6. -/
theorem calculate_optimal_font_size_can_grow :
    0 < ((1 : ℚ) / 2) ∧ 0 < (6 : ℚ) ∧
      calculate_optimal_font_size "12345678901234567890".toList (1 / 2) 6 = 12 ∧
      (6 : ℚ) < 12 :=
  ⟨by norm_num, by norm_num, calc_twenty_half_6, by norm_num⟩

/-- C3 (amended): the shrink-only property holds whenever the minimum size
does not exceed the original size (in particular for every original size at
or above the default 12 pt floor): `calculate_optimal_font_size` never
returns more than the original size then. -/
theorem calculate_optimal_font_size_shrink_only (text : List Char)
    (w s m : ℚ) (hw : 0 < w) (hs : 0 < s) (hm : m ≤ s) :
    calculate_optimal_font_size text w s m ≤ s := by
  show (if estimate_text_width (maxLineOf text) s ≤ w * (95 / 100) then s
      else max (s * (w * (95 / 100) / estimate_text_width (maxLineOf text) s)) m)
      ≤ s
  by_cases hfit :
      estimate_text_width (maxLineOf text) s ≤ w * (95 / 100)
  · rw [if_pos hfit]
  · rw [if_neg hfit]
    have hW : 0 < w * (95 / 100) := by positivity
    have hlt : w * (95 / 100) < estimate_text_width (maxLineOf text) s :=
      lt_of_not_ge hfit
    have hratio : w * (95 / 100) / estimate_text_width (maxLineOf text) s < 1 :=
      (div_lt_one (hW.trans hlt)).mpr hlt
    refine max_le ?_ hm
    calc s * (w * (95 / 100) / estimate_text_width (maxLineOf text) s)
        ≤ s * 1 := by
          exact mul_le_mul_of_nonneg_left hratio.le hs.le
      _ = s := mul_one s

/-- Witness for the amended C3 at concrete values. -/
theorem calculate_optimal_font_size_shrink_only_witness :
    calculate_optimal_font_size "12345678901234567890".toList 1 18 12 ≤ 18 :=
  calculate_optimal_font_size_shrink_only _ 1 18 12 (by norm_num) (by norm_num)
    (by norm_num)

/-- C6: for the 20-digit paragraph at 18 pt in a 1-inch shape, the estimated
width is 20 × (18/72) × 0.5 = 2.5 in, which exceeds the 0.95 in margin; the
proportional reduction is 18 × (0.95/2.5) = 6.84 pt, and the default 12 pt
floor makes `calculate_optimal_font_size` return exactly 12. -/
theorem optimal_font_size_twenty_digits :
    estimate_text_width "12345678901234567890".toList 18 = 5 / 2 ∧
      ¬ ((5 : ℚ) / 2 ≤ 1 * (95 / 100)) ∧
      (18 : ℚ) * (1 * (95 / 100) / (5 / 2)) = 171 / 25 ∧
      calculate_optimal_font_size "12345678901234567890".toList 1 18 = 12 := by
  refine ⟨by rw [estimate_twenty]; norm_num, by norm_num, by norm_num, ?_⟩
  simp only [calculate_optimal_font_size, twenty_maxLine, estimate_twenty]
  rw [if_neg (by norm_num)]
  rw [max_eq_right (by norm_num)]

/-- C7: slide-deletion precedence.  With `slides_to_keep=[0,2]` and
`slides_to_delete=[1,2,3]` both present on a 5-slide deck, keep wins: exactly
slides 1, 3 and 4 are deleted and 0 and 2 survive; and in general the deleted
set is always a subset of the valid range (out-of-range indices are filtered
out — with a warning — rather than raising, `delete_slides` being total). -/
theorem delete_slides_keep_precedence :
    delete_slides (some [0, 2]) (some [1, 2, 3]) 5 = ({1, 3, 4} : Finset Nat) ∧
      (0 : Nat) ∉ delete_slides (some [0, 2]) (some [1, 2, 3]) 5 ∧
      (2 : Nat) ∉ delete_slides (some [0, 2]) (some [1, 2, 3]) 5 ∧
      ∀ keep del total, delete_slides keep del total ⊆ Finset.range total := by
  refine ⟨by decide, by decide, by decide, ?_⟩
  intro keep del total
  exact Finset.inter_subset_right

/-- C9: both walkers read missing (`None`) geometry as 0 and never raise (the
modelled walkers are total functions).  A leaf with a missing `left` (resp.
`top`) produces exactly the entries of the same leaf with that offset set to
0, in both tools, and the same holds for a group's own offsets. -/
theorem walkers_treat_missing_offset_as_zero :
    ∀ (lf : Leaf) (oL oT : Int) (gt gl : Option Int) (cs : List PShape),
      extract_shape_text { lf with left := none } oL oT =
        extract_shape_text { lf with left := some 0 } oL oT ∧
      extract_shape_text { lf with top := none } oL oT =
        extract_shape_text { lf with top := some 0 } oL oT ∧
      extract_one (.leaf { lf with left := none }) oL oT =
        extract_one (.leaf { lf with left := some 0 }) oL oT ∧
      extract_one (.leaf { lf with top := none }) oL oT =
        extract_one (.leaf { lf with top := some 0 }) oL oT ∧
      (apply_one (.leaf { lf with left := none }) oL oT).map
          (fun e => (e.1.srcId, e.2)) =
        (apply_one (.leaf { lf with left := some 0 }) oL oT).map
          (fun e => (e.1.srcId, e.2)) ∧
      (apply_one (.leaf { lf with top := none }) oL oT).map
          (fun e => (e.1.srcId, e.2)) =
        (apply_one (.leaf { lf with top := some 0 }) oL oT).map
          (fun e => (e.1.srcId, e.2)) ∧
      extract_one (.group none gt cs) oL oT =
        extract_one (.group (some 0) gt cs) oL oT ∧
      extract_one (.group gl none cs) oL oT =
        extract_one (.group gl (some 0) cs) oL oT ∧
      apply_one (.group none gt cs) oL oT =
        apply_one (.group (some 0) gt cs) oL oT ∧
      apply_one (.group gl none cs) oL oT =
        apply_one (.group gl (some 0) cs) oL oT := by
  intro lf oL oT gt gl cs
  obtain ⟨i, l, t, w, h, tf, ph⟩ := lf
  refine ⟨rfl, rfl, rfl, rfl, ?_, ?_, rfl, rfl, rfl, rfl⟩ <;>
    (cases tf <;> simp only [apply_one] <;> (try split_ifs) <;> simp)

/-- C10: the font size `apply_shape_text` actually applies to a paragraph's
run never exceeds the directive's original size: the shrunk size is used
only under the guard `optimal_font_size < original_font_size`.  The second
conjunct exhibits the case the guard protects against: with original size
6 pt (below the 12 pt floor) and overflowing text, the optimiser returns 12,
yet the applied size stays 6. -/
theorem applied_font_size_le_original :
    (∀ (auto_shrink : Bool) (text : List Char) (w orig : ℚ),
        applied_font_size auto_shrink text w orig ≤ orig) ∧
      calculate_optimal_font_size "12345678901234567890".toList (1 / 2) 6 = 12 ∧
      applied_font_size true "12345678901234567890".toList (1 / 2) 6 = 6 := by
  refine ⟨?_, calc_twenty_half_6, ?_⟩
  · intro auto_shrink text w orig
    show (if auto_shrink = true ∧ text ≠ [] then
        if calculate_optimal_font_size text w orig < orig then
          calculate_optimal_font_size text w orig
        else orig
      else orig) ≤ orig
    by_cases hc : auto_shrink = true ∧ text ≠ []
    · rw [if_pos hc]
      by_cases hlt : calculate_optimal_font_size text w orig < orig
      · rw [if_pos hlt]; exact hlt.le
      · rw [if_neg hlt]
    · rw [if_neg hc]
  · show (if (true : Bool) = true ∧ "12345678901234567890".toList ≠ [] then
        if calculate_optimal_font_size "12345678901234567890".toList (1 / 2) 6
            < 6 then
          calculate_optimal_font_size "12345678901234567890".toList (1 / 2) 6
        else 6
      else 6) = 6
    rw [if_pos ⟨rfl, by decide⟩, calc_twenty_half_6, if_neg (by norm_num)]

/-- Normal form of `apply_paragraph_formatting` on a non-bullet directive:
margins zeroed, cleared bullet children followed by an explicit `buNone`,
paragraph level untouched, and the directive's `level` nowhere consulted. -/
theorem apply_paragraph_formatting_no_bullet_eq (p : ParaState) (pd : ParaData)
    (hb : pd.bullet.getD false = false) :
    apply_paragraph_formatting p pd =
      { pPr :=
          { marL := some 0
            indent := some 0
            children :=
              p.pPr.children.filter (fun c => ¬ isBuTag c) ++ [PPrChild.buNone] }
        level := p.level
        alignment :=
          match pd.alignment with
          | some s =>
            match alignment_map s with
            | some a => some a
            | none => p.alignment
          | none => p.alignment
        space_before :=
          match pd.space_before with
          | some v => some v
          | none => p.space_before
        space_after :=
          match pd.space_after with
          | some v => some v
          | none => p.space_after
        runs :=
          match p.runs with
          | [] => [apply_font_properties { text := replaceVt pd.text } pd]
          | r :: rs =>
            apply_font_properties { r with text := replaceVt pd.text } pd :: rs } := by
  obtain ⟨tx, b, lv, al, sb, sa, fs, fn, bo, it, un⟩ := pd
  obtain ⟨ppr, plevel, palign, psb, psa, pruns⟩ := p
  simp only [apply_paragraph_formatting, clear_paragraph_formatting] at hb ⊢
  rw [hb]
  rcases al with _ | s
  · rcases sb with _ | v1 <;> rcases sa with _ | v2 <;>
      rcases pruns with _ | ⟨r, rs⟩ <;> rfl
  · rcases hm : alignment_map s with _ | a <;> simp only [hm] <;>
      rcases sb with _ | v1 <;> rcases sa with _ | v2 <;>
      rcases pruns with _ | ⟨r, rs⟩ <;> rfl

/-- C8: for a paragraph directive with `bullet` false or absent,
`apply_paragraph_formatting` zeroes the paragraph's `marL` and `indent`
attributes, appends an explicit `buNone` marker after removing every
pre-existing bullet-formatting child, and the directive's `level` field has
no effect on the result. -/
theorem apply_paragraph_formatting_no_bullet (p : ParaState) (pd : ParaData)
    (hb : pd.bullet.getD false = false) :
    (apply_paragraph_formatting p pd).pPr.marL = some 0 ∧
      (apply_paragraph_formatting p pd).pPr.indent = some 0 ∧
      (apply_paragraph_formatting p pd).pPr.children =
        p.pPr.children.filter (fun c => ¬ isBuTag c) ++ [PPrChild.buNone] ∧
      (∀ ch, PPrChild.buChar ch ∉ (apply_paragraph_formatting p pd).pPr.children) ∧
      PPrChild.buAutoNum ∉ (apply_paragraph_formatting p pd).pPr.children ∧
      ∀ lvl, apply_paragraph_formatting p { pd with level := lvl } =
        apply_paragraph_formatting p pd := by
  have h := apply_paragraph_formatting_no_bullet_eq p pd hb
  refine ⟨by rw [h], by rw [h], by rw [h], ?_, ?_, ?_⟩
  · intro ch
    rw [h]
    simp [List.mem_filter, isBuTag]
  · rw [h]
    simp [List.mem_filter, isBuTag]
  · intro lvl
    rw [apply_paragraph_formatting_no_bullet_eq p { pd with level := lvl } hb, h]
    rfl

/-- Witness for C8 on a fresh paragraph and a minimal text-only directive. -/
theorem apply_paragraph_formatting_no_bullet_witness :
    (apply_paragraph_formatting {} { text := "x".toList }).pPr.marL = some 0 ∧
      (apply_paragraph_formatting {} { text := "x".toList }).pPr.indent =
        some 0 ∧
      (apply_paragraph_formatting {} { text := "x".toList }).pPr.children =
        ({} : ParaState).pPr.children.filter (fun c => ¬ isBuTag c) ++
          [PPrChild.buNone] ∧
      (∀ ch, PPrChild.buChar ch ∉
        (apply_paragraph_formatting {} { text := "x".toList }).pPr.children) ∧
      PPrChild.buAutoNum ∉
        (apply_paragraph_formatting {} { text := "x".toList }).pPr.children ∧
      ∀ lvl, apply_paragraph_formatting {}
          { ({ text := "x".toList } : ParaData) with level := lvl } =
        apply_paragraph_formatting {} { text := "x".toList } :=
  apply_paragraph_formatting_no_bullet {} { text := "x".toList } rfl

/-! ## Overlap detection lemmas -/

/-- Swapping the two boxes preserves the overlap screen. -/
theorem boxes_overlap_symm {e1 e2 : ShapeData × Int × Int}
    (h : boxes_overlap e1 e2) : boxes_overlap e2 e1 := by
  unfold boxes_overlap at h ⊢
  tauto

/-- The recorded intersection area is symmetric in the two boxes. -/
theorem overlap_area_comm (e1 e2 : ShapeData × Int × Int) :
    overlap_area e1 e2 = overlap_area e2 e1 := by
  unfold overlap_area
  rw [min_comm (emu_to_inches e1.2.1 + e1.1.width) _,
    max_comm (emu_to_inches e1.2.1) _,
    min_comm (emu_to_inches e1.2.2 + e1.1.height) _,
    max_comm (emu_to_inches e1.2.2) _]

/-- Membership in the inner-loop result of `detect_overlaps`: `(j, a)` is
recorded for `e1` at position `i` exactly when `j` is another in-range
position whose box passes the strict screen against `e1` with positive
area, and `a` is that area rounded to two decimals. -/
theorem mem_overlapEntriesFor {e1 : ShapeData × Int × Int} {i j : Nat}
    {a : ℚ} {ws : List (ShapeData × Int × Int)} :
    (j, a) ∈ overlapEntriesFor e1 i ws ↔
      ∃ hj : j < ws.length, i ≠ j ∧ boxes_overlap e1 (ws.get ⟨j, hj⟩) ∧
        0 < overlap_area e1 (ws.get ⟨j, hj⟩) ∧
        a = round2 (overlap_area e1 (ws.get ⟨j, hj⟩)) := by
  unfold overlapEntriesFor
  rw [List.mem_filterMap]
  constructor
  · rintro ⟨⟨k, e2⟩, hmem, hf⟩
    obtain ⟨hk, hke⟩ :=
      List.getElem?_eq_some.mp (List.mk_mem_enum_iff_getElem?.mp hmem)
    subst hke
    dsimp only at hf
    by_cases hik : i = k
    · rw [if_pos hik] at hf
      exact absurd hf (by simp)
    · rw [if_neg hik] at hf
      split_ifs at hf with hcond harea
      · injection hf with hpair
        injection hpair with h1 h2
        subst h1
        refine ⟨hk, hik, ?_, ?_, ?_⟩
        · simp only [List.get_eq_getElem]
          exact hcond
        · simp only [List.get_eq_getElem]
          exact harea
        · simp only [List.get_eq_getElem]
          exact h2.symm
  · rintro ⟨hj, hij, hbox, harea, ha⟩
    subst ha
    refine ⟨(j, ws.get ⟨j, hj⟩), ?_, ?_⟩
    · exact List.mk_mem_enum_iff_getElem?.mpr (by simp)
    · dsimp only
      split_ifs with h1 h2 h3
      · exact absurd h1 hij
      · rfl
      · exact absurd harea h3
      · exact absurd hbox h2

/-- The `detect_overlaps` keeps the list length. -/
theorem detect_overlaps_length (ws : List (ShapeData × Int × Int)) :
    (detect_overlaps ws).length = ws.length := by
  unfold detect_overlaps
  rw [List.length_map, List.enum_length]

/-- The overlap map at an in-range position `i`: the inner-loop entries when
non-empty, otherwise the input entry's (untouched) `overlap` field. -/
theorem overlap_map_at_eq (ws : List (ShapeData × Int × Int)) (i : Nat)
    (hi : i < ws.length) :
    overlap_map_at ws i =
      (if overlapEntriesFor (ws.get ⟨i, hi⟩) i ws = []
        then (ws.get ⟨i, hi⟩).1.overlap
        else some (overlapEntriesFor (ws.get ⟨i, hi⟩) i ws)) := by
  unfold overlap_map_at detect_overlaps
  rw [List.getD_eq_getElem?_getD, List.getElem?_map, List.getElem?_map,
    List.getElem?_enum, List.getElem?_eq_getElem hi]
  simp only [List.get_eq_getElem]
  by_cases h : overlapEntriesFor ws[i] i ws = [] <;> simp [h]

/-- Out-of-range positions have no overlap map. -/
theorem overlap_map_at_none (ws : List (ShapeData × Int × Int)) (i : Nat)
    (hi : ¬ i < ws.length) :
    overlap_map_at ws i = none := by
  unfold overlap_map_at detect_overlaps
  rw [List.getD_eq_getElem?_getD, List.getElem?_map, List.getElem?_map,
    List.getElem?_enum, List.getElem?_eq_none (by omega)]
  rfl

/-- C5: overlap symmetry.  On any walked list whose entries start with no
overlap recorded (as `extract_shape_text` constructs them), if the shape at
position `i` records the pair `(j, a)` then the shape at position `j`
records `(i, a)` — both directions of a pair are always present, with the
identical rounded area. -/
theorem detect_overlaps_symmetric (ws : List (ShapeData × Int × Int))
    (hclean : ∀ e ∈ ws, e.1.overlap = none)
    (i j : Nat) (a : ℚ) (os : List (Nat × ℚ))
    (hmap : overlap_map_at ws i = some os) (hmem : (j, a) ∈ os) :
    ∃ os2, overlap_map_at ws j = some os2 ∧ (i, a) ∈ os2 := by
  have hi : i < ws.length := by
    by_contra h
    rw [overlap_map_at_none ws i h] at hmap
    exact Option.noConfusion hmap
  rw [overlap_map_at_eq ws i hi] at hmap
  by_cases hempty : overlapEntriesFor (ws.get ⟨i, hi⟩) i ws = []
  · rw [if_pos hempty, hclean _ (ws.get_mem i hi)] at hmap
    exact Option.noConfusion hmap
  · rw [if_neg hempty] at hmap
    injection hmap with hmap
    subst hmap
    rw [mem_overlapEntriesFor] at hmem
    obtain ⟨hj, hij, hbox, harea, ha⟩ := hmem
    have hmem2 : (i, a) ∈ overlapEntriesFor (ws.get ⟨j, hj⟩) j ws := by
      rw [mem_overlapEntriesFor]
      refine ⟨hi, hij.symm, boxes_overlap_symm hbox, ?_, ?_⟩
      · rw [overlap_area_comm]
        exact harea
      · rw [overlap_area_comm]
        exact ha
    refine ⟨_, ?_, hmem2⟩
    rw [overlap_map_at_eq ws j hj,
      if_neg (List.ne_nil_of_mem hmem2)]

/-- Witness for C5 on the concrete two-shape list. -/
theorem detect_overlaps_symmetric_witness :
    ∃ os2, overlap_map_at wsPair 1 = some os2 ∧ ((0 : Nat), (1 : ℚ) / 2) ∈ os2 :=
  detect_overlaps_symmetric wsPair (by decide) 0 1 (1 / 2) [(1, 1 / 2)]
    (by
      rw [overlap_map_at_eq wsPair 0 (by decide)]
      norm_num [overlapEntriesFor, wsPair, emu_to_inches, round2, round_eq,
        List.enum, List.enumFrom, min_def, max_def, List.filterMap_cons])
    (by simp)

/-- C2 (amended): `detect_overlaps` does record every positively overlapping
pair in both shapes' maps with the rounded intersection area — but keyed by
the other shape's position in the *traversal-ordered walk list it receives*
(it runs before the visual sort), not by the visual-sort ordinal. -/
theorem detect_overlaps_records_walk_index (ws : List (ShapeData × Int × Int))
    (i j : Nat) (hi : i < ws.length) (hj : j < ws.length) (hij : i ≠ j)
    (hbox : boxes_overlap (ws.get ⟨i, hi⟩) (ws.get ⟨j, hj⟩))
    (harea : 0 < overlap_area (ws.get ⟨i, hi⟩) (ws.get ⟨j, hj⟩)) :
    ∃ os, overlap_map_at ws i = some os ∧
      (j, round2 (overlap_area (ws.get ⟨i, hi⟩) (ws.get ⟨j, hj⟩))) ∈ os := by
  have hmem : (j, round2 (overlap_area (ws.get ⟨i, hi⟩) (ws.get ⟨j, hj⟩))) ∈
      overlapEntriesFor (ws.get ⟨i, hi⟩) i ws :=
    mem_overlapEntriesFor.mpr ⟨hj, hij, hbox, harea, rfl⟩
  refine ⟨_, ?_, hmem⟩
  rw [overlap_map_at_eq ws i hi, if_neg (List.ne_nil_of_mem hmem)]

/-- Witness for the amended C2 on the concrete two-shape list. -/
theorem detect_overlaps_records_walk_index_witness :
    ∃ os, overlap_map_at wsPair 0 = some os ∧
      ((1 : Nat),
        round2 (overlap_area (wsPair.get ⟨0, by decide⟩)
          (wsPair.get ⟨1, by decide⟩))) ∈ os :=
  detect_overlaps_records_walk_index wsPair 0 1 (by decide) (by decide)
    (by decide)
    (by norm_num [wsPair, boxes_overlap, emu_to_inches])
    (by norm_num [wsPair, overlap_area, emu_to_inches, min_def, max_def])

/-- C2, counterexample: overlap-map keys are *not* the visual-sort ordinals.
On `slideTwoOverlapping` the surviving shapes get ordinals 0 (srcId 20, top
0.5 in) and 1 (srcId 10, top 1 in) and overlap each other on a strip of area
0.5 in².  Were the keys visual-sort ordinals, ordinal 0's map would contain
key 1 and ordinal 1's map key 0; instead each map holds the other shape's
*pre-sort traversal index* — ordinal 0's map has key 0 and ordinal 1's map
has key 1, and neither map contains the other shape's ordinal. -/
theorem overlap_keys_not_sorted_ordinals :
    ((slideInventory slideTwoOverlapping).map fun e => (e.1.srcId, e.1.top)) =
        [(20, 1 / 2), (10, 1)] ∧
      inventory_overlap_at slideTwoOverlapping 0 = some [(0, 1 / 2)] ∧
      inventory_overlap_at slideTwoOverlapping 1 = some [(1, 1 / 2)] ∧
      (∀ a : ℚ, ∀ os, inventory_overlap_at slideTwoOverlapping 0 = some os →
        ((1 : Nat), a) ∈ os → False) ∧
      (∀ a : ℚ, ∀ os, inventory_overlap_at slideTwoOverlapping 1 = some os →
        ((0 : Nat), a) ∈ os → False) := by
  have h0 : inventory_overlap_at slideTwoOverlapping 0 = some [(0, 1 / 2)] := by
    norm_num [inventory_overlap_at, slideInventory, slideTwoOverlapping,
      overlapLeafHigh, overlapLeafLow, extract_shapes_recursive, extract_one,
      extract_shape_text, detect_overlaps, overlapEntriesFor, stableSortBy,
      insertSorted, keyLE, List.enum, List.enumFrom, List.filterMap_cons,
      emu_to_inches, round2, round_eq, pyStrip, joinNl, isSpaceChar,
      cleanParaText, replaceVt, isSkippedPhType, min_def, max_def]
  have h1 : inventory_overlap_at slideTwoOverlapping 1 = some [(1, 1 / 2)] := by
    norm_num [inventory_overlap_at, slideInventory, slideTwoOverlapping,
      overlapLeafHigh, overlapLeafLow, extract_shapes_recursive, extract_one,
      extract_shape_text, detect_overlaps, overlapEntriesFor, stableSortBy,
      insertSorted, keyLE, List.enum, List.enumFrom, List.filterMap_cons,
      emu_to_inches, round2, round_eq, pyStrip, joinNl, isSpaceChar,
      cleanParaText, replaceVt, isSkippedPhType, min_def, max_def]
  refine ⟨?_, h0, h1, ?_, ?_⟩
  · norm_num [slideInventory, slideTwoOverlapping, overlapLeafHigh,
      overlapLeafLow, extract_shapes_recursive, extract_one,
      extract_shape_text, detect_overlaps, overlapEntriesFor, stableSortBy,
      insertSorted, keyLE, List.enum, List.enumFrom, List.filterMap_cons,
      emu_to_inches, round2, round_eq, pyStrip, joinNl, isSpaceChar,
      cleanParaText, replaceVt, isSkippedPhType, min_def, max_def]
  · intro a os h hm
    rw [h0] at h
    injection h with h
    subst h
    simp at hm
  · intro a os h hm
    rw [h1] at h
    injection h with h
    subst h
    simp at hm

/-- C4: walker offset accumulation and addressing on the title-plus-group
slide.  The visual sort assigns ordinal 0 to the title (absolute top 0.5 in),
ordinal 1 to the first group child (top 2 in = 2 in group offset + 0 local),
ordinal 2 to the second (top 3 in = 2 in + 1 in); both children sit at
absolute left 1 in; the group itself contributes no entry (exactly three
entries survive), and the application walker assigns the same ordinals. -/
theorem walker_offset_accumulation :
    ((slideInventory slideTitleGroup).map fun e => (e.1.srcId, e.1.top, e.1.left)) =
        [(0, 1 / 2, 0), (1, 2, 1), (2, 3, 1)] ∧
      (slideInventory slideTitleGroup).length = 3 ∧
      (extract_shapes_from_slide slideTitleGroup).map Leaf.srcId = [0, 1, 2] := by
  refine ⟨?_, ?_, ?_⟩ <;>
    norm_num [slideInventory, slideTitleGroup, titleLeaf, groupChildA,
      groupChildB, extract_shapes_recursive, extract_one, extract_shape_text,
      extract_shapes_from_slide, get_shapes_recursive, apply_one,
      detect_overlaps, overlapEntriesFor, stableSortBy, insertSorted, keyLE,
      List.enum, List.enumFrom, List.filterMap_cons, emu_to_inches, round2,
      round_eq, pyStrip, joinNl, isSpaceChar, cleanParaText, replaceVt,
      isSkippedPhType, min_def, max_def]

/-! ## Cross-tool agreement (C1) -/

/-- Python `strip()` yields the empty string exactly when every character is
whitespace. -/
theorem pyStrip_eq_nil_iff {l : List Char} :
    pyStrip l = [] ↔ ∀ c ∈ l, isSpaceChar c := by
  unfold pyStrip
  rw [List.reverse_eq_nil_iff, List.dropWhile_eq_nil_iff]
  constructor
  · intro h c hc
    have hsplit := List.takeWhile_append_dropWhile (p := isSpaceChar) (l := l)
    rw [← hsplit] at hc
    rcases List.mem_append.mp hc with h1 | h1
    · exact List.mem_takeWhile_imp h1
    · exact h c (List.mem_reverse.mpr h1)
  · intro h c hc
    exact h c ((List.dropWhile_sublist isSpaceChar).subset
      (List.mem_reverse.mp hc))

/-- The newline join of paragraph texts is all-whitespace exactly when every
paragraph text is (newline itself being whitespace). -/
theorem joinNl_allSpace (ps : List (List Char)) :
    (∀ c ∈ joinNl ps, isSpaceChar c) ↔ ∀ p ∈ ps, ∀ c ∈ p, isSpaceChar c := by
  induction ps with
  | nil => simp [joinNl]
  | cons p rest ih =>
    cases rest with
    | nil => simp [joinNl]
    | cons q r =>
      rw [show joinNl (p :: q :: r) = p ++ '\n' :: joinNl (q :: r) from rfl]
      simp only [List.mem_append, List.mem_cons]
      constructor
      · intro h p2 hp2
        rcases hp2 with rfl | hp2
        · exact fun c hc => h c (Or.inl hc)
        · exact ih.mp (fun c hc => h c (Or.inr (Or.inr hc))) p2
            (List.mem_cons.mpr hp2)
      · intro h c hc
        rcases hc with hc | rfl | hc
        · exact h p (Or.inl rfl) c hc
        · decide
        · exact ih.mpr (fun p2 hp2 => h p2 (Or.inr (List.mem_cons.mp hp2)))
            c hc

/-- When a text frame's joined text does not trim to empty, at least one
paragraph survives the per-paragraph filter of `extract_shape_text`. -/
theorem surviving_paragraphs_ne_nil {ps : List (List Char)}
    (h : ¬ pyStrip (joinNl ps) = []) :
    ¬ ((ps.filter fun p => ¬ (pyStrip p = [])).map cleanParaText = []) := by
  intro hmap
  have hfil : (ps.filter fun p => ¬ (pyStrip p = [])) = [] :=
    List.map_eq_nil_iff.mp hmap
  apply h
  rw [pyStrip_eq_nil_iff, joinNl_allSpace]
  intro p hp
  have hp2 : pyStrip p = [] := by
    by_contra hne
    have hmem : p ∈ ps.filter fun p => ¬ (pyStrip p = []) :=
      List.mem_filter.mpr ⟨hp, by simpa using hne⟩
    rw [hfil] at hmem
    cases hmem
  exact pyStrip_eq_nil_iff.mp hp2

/-- On a single leaf shape the two walkers agree: the same filtering
predicate decides survival, and the surviving entry carries the same ghost
identity and the same `(top, left)` sort key in inches. -/
theorem leaf_agree (lf : Leaf) (oL oT : Int) :
    (extract_one (.leaf lf) oL oT).map extractKeyed =
      (apply_one (.leaf lf) oL oT).map applyKeyed := by
  cases htf : lf.textFrame with
  | none => simp [extract_one, apply_one, extract_shape_text, htf]
  | some ps =>
    by_cases hstrip : pyStrip (joinNl ps) = []
    · simp [extract_one, apply_one, extract_shape_text, htf, hstrip]
    · by_cases hph : (match lf.phType with
          | some t => isSkippedPhType t
          | none => false) = true
      · simp [extract_one, apply_one, extract_shape_text, htf, hstrip, hph]
      · have hpar := surviving_paragraphs_ne_nil hstrip
        simp only [extract_one, apply_one, extract_shape_text, htf]
        rw [if_neg hstrip, if_neg hph, if_neg hpar, if_neg hstrip, if_neg hph]
        simp [extractKeyed, applyKeyed]

mutual

/-- The two recursive walkers agree on every shape list: identical surviving
entries (by ghost identity) with identical sort keys, in the same traversal
order, under any accumulated offset. -/
theorem walk_agree_list (shapes : List PShape) (oL oT : Int) :
    (extract_shapes_recursive shapes oL oT).map extractKeyed =
      (get_shapes_recursive shapes oL oT).map applyKeyed := by
  cases shapes with
  | nil => simp [extract_shapes_recursive, get_shapes_recursive]
  | cons s rest =>
    simp only [extract_shapes_recursive, get_shapes_recursive,
      List.map_append]
    rw [walk_agree_one s oL oT, walk_agree_list rest oL oT]

/-- Single-shape case of `walk_agree_list`. -/
theorem walk_agree_one (s : PShape) (oL oT : Int) :
    (extract_one s oL oT).map extractKeyed =
      (apply_one s oL oT).map applyKeyed := by
  cases s with
  | group gl gt cs =>
    simp only [extract_one, apply_one]
    exact walk_agree_list cs (gl.getD 0 + oL) (gt.getD 0 + oT)
  | leaf lf => exact leaf_agree lf oL oT

end

/-- The `detect_overlaps` only fills `overlap` fields: identities and sort keys
are untouched. -/
theorem detect_overlaps_map_keyed (ws : List (ShapeData × Int × Int)) :
    (detect_overlaps ws).map extractKeyed = ws.map extractKeyed := by
  unfold detect_overlaps
  rw [List.map_map]
  rw [show ws.map extractKeyed = ws.enum.map (extractKeyed ∘ Prod.snd) from by
    rw [← List.map_map, List.enum_map_snd]]
  apply List.map_congr_left
  intro p hp
  rcases p with ⟨i, e⟩
  by_cases h : overlapEntriesFor e i ws = [] <;> simp [extractKeyed, h]

/-- Mapping commutes with the stable insertion when the order only looks at
the mapped view. -/
theorem map_insertSorted (f : α → β) (leA : α → α → Bool) (leB : β → β → Bool)
    (h : ∀ a b, leA a b = leB (f a) (f b)) (a : α) (l : List α) :
    (insertSorted leA a l).map f = insertSorted leB (f a) (l.map f) := by
  induction l with
  | nil => rfl
  | cons b bs ih =>
    simp only [insertSorted, List.map_cons, h a b]
    by_cases hc : leB (f a) (f b) = true
    · rw [if_pos hc, if_pos hc]
      simp
    · rw [if_neg hc, if_neg hc]
      simp [ih]

/-- Mapping commutes with the stable sort when the order only looks at the
mapped view. -/
theorem map_stableSortBy (f : α → β) (leA : α → α → Bool) (leB : β → β → Bool)
    (h : ∀ a b, leA a b = leB (f a) (f b)) (l : List α) :
    (stableSortBy leA l).map f = stableSortBy leB (l.map f) := by
  induction l with
  | nil => rfl
  | cons a l ih =>
    simp only [stableSortBy, List.map_cons]
    rw [map_insertSorted f leA leB h, ih]

/-- C1, cross-tool agreement: for every slide, the extraction pipeline
(walk, overlap detection, visual sort — extract_shapes.py) and the
application pipeline (walk, visual sort — apply_content.py) produce the same
list of surviving text-bearing shapes, so the ordinal (list position)
assigned to each shape is identical in both tools. -/
theorem cross_tool_agreement (shapes : List PShape) :
    (slideInventory shapes).map (fun e => e.1.srcId) =
      (extract_shapes_from_slide shapes).map Leaf.srcId := by
  have hchain : (slideInventory shapes).map extractKeyed =
      (stableSortBy
        (fun a b =>
          keyLE (emu_to_inches a.2.2, emu_to_inches a.2.1)
            (emu_to_inches b.2.2, emu_to_inches b.2.1))
        (get_shapes_recursive shapes 0 0)).map applyKeyed := by
    calc (slideInventory shapes).map extractKeyed
        = stableSortBy keyedLE
            ((detect_overlaps (extract_shapes_recursive shapes 0 0)).map
              extractKeyed) := by
          unfold slideInventory
          exact map_stableSortBy extractKeyed _ keyedLE (fun a b => rfl) _
      _ = stableSortBy keyedLE
            ((extract_shapes_recursive shapes 0 0).map extractKeyed) := by
          rw [detect_overlaps_map_keyed]
      _ = stableSortBy keyedLE
            ((get_shapes_recursive shapes 0 0).map applyKeyed) := by
          rw [walk_agree_list]
      _ = (stableSortBy
            (fun a b =>
              keyLE (emu_to_inches a.2.2, emu_to_inches a.2.1)
                (emu_to_inches b.2.2, emu_to_inches b.2.1))
            (get_shapes_recursive shapes 0 0)).map applyKeyed := by
          exact (map_stableSortBy applyKeyed
            (fun a b =>
              keyLE (emu_to_inches a.2.2, emu_to_inches a.2.1)
                (emu_to_inches b.2.2, emu_to_inches b.2.1))
            keyedLE (fun a b => rfl) _).symm
  have h1 : (slideInventory shapes).map (fun e => e.1.srcId) =
      ((slideInventory shapes).map extractKeyed).map (fun x => x.1) := by
    rw [List.map_map]
    rfl
  have h2 : (extract_shapes_from_slide shapes).map Leaf.srcId =
      ((stableSortBy
        (fun a b =>
          keyLE (emu_to_inches a.2.2, emu_to_inches a.2.1)
            (emu_to_inches b.2.2, emu_to_inches b.2.1))
        (get_shapes_recursive shapes 0 0)).map applyKeyed).map (fun x => x.1) := by
    unfold extract_shapes_from_slide
    rw [List.map_map, List.map_map]
    rfl
  rw [h1, hchain, ← h2]

end AgPpt
